import Mathlib

/-!
Shallow embedding of `src/district.py` (Property-HK pipeline):
price collection, geocoding with a persisted coordinate cache,
district lookup, and the combine/format stage.

Tables are modelled as lists of typed rows; the pandas index of a keyed
table becomes an explicit key component.  Cells that pandas may hold as
NaN are modelled with `Option`; numeric cells that may arrive as ints,
strings or NaN are a small value type `CellVal`.  Fallible stages
(`astype`, the colour-split column assignment) return `Except String`.
Latitude/longitude floats are modelled as rationals (no claim depends on
float rounding).  Network calls are oracles passed as arguments; the
number/identity of calls made is exposed as an explicit list.
-/

deriving instance DecidableEq for Except

/-- A scalar cell as it arrives from scraped/cached JSON: an integer,
a string, or a missing value (NaN/None). -/
inductive CellVal where
  | vint (n : Int)
  | vstr (s : String)
  | vnull
deriving DecidableEq, Repr

/-- A nonempty all-digit character list read as a number; anything else
is not a valid integer literal. -/
def parseDigits : List Char → Option Nat
  | [] => none
  | cs =>
    if cs.all (fun c => c.isDigit)
    then some (cs.foldl (fun n c => n * 10 + (c.toNat - 48)) 0)
    else none

/-- Python's `int(s)` on a plain numeric string: an optional sign
followed by digits; any other string fails. -/
def pyInt? (s : String) : Option Int :=
  match s.toList with
  | '-' :: rest => (parseDigits rest).map (fun n => -(n : Int))
  | '+' :: rest => (parseDigits rest).map (fun n => (n : Int))
  | l => (parseDigits l).map (fun n => (n : Int))

/-- `astype(int)` on one cell: ints pass through, strings are parsed as
integers (a non-numeric string fails), a missing value fails. -/
def astypeInt : CellVal → Except String Int
  | .vint n => .ok n
  | .vstr s =>
    match pyInt? s with
    | some n => .ok n
    | none => .error ("invalid literal for int: " ++ s)
  | .vnull => .error "cannot convert NaN to integer"

/-- One building record of the price table (`prices_df`). -/
structure PriceRow where
  buildingname : String
  buildingaddress : Option String
  region : String
  medianpredprice : CellVal
  transactionscount : CellVal
  built : CellVal
  numberofunits : CellVal
  numberoffloors : CellVal
  colour : String
deriving DecidableEq, Repr

/-- One value row of the coordinate table (`coordinates_df`); the key
(building address) is kept alongside, see `CoordTable`. -/
structure CoordRow where
  lat : Option Rat
  lng : Option Rat
deriving DecidableEq, Repr

/-- `coordinates_df`: rows keyed by building address (the index). -/
abbrev CoordTable := List (String × CoordRow)

/-- The keys (index) of a coordinate table. -/
def cacheKeys (c : CoordTable) : List String := c.map Prod.fst

/-- The district lookup table produced by `get_districts`: rows keyed by
region (the index, `none` when `explode` met an empty list), carrying
the district name. -/
abbrev DistrictTable := List (Option String × String)

/-- A geocoding oracle: `none` models the service returning no match. -/
abbrev Geocoder := String → Option (Rat × Rat)

/-- The inner `get_coordinates(building)` helper: one geocoding query,
with `(0, 0)` as the sentinel for a no-match result. -/
def get_coordinates_inner (gmaps : Geocoder) (building : String) : Rat × Rat :=
  match gmaps building with
  | none => (0, 0)
  | some p => p

/-- `buildingaddress[~buildingaddress.isin(coordinates_df.index)]`: the
elements of the input series (duplicates included, order kept) whose
address is not a key of the loaded cache.  Each element of this list
yields exactly one geocoding network call. -/
def buildingsToGet (buildingaddress : List String) (cache : CoordTable) : List String :=
  buildingaddress.filter (fun a => !(cacheKeys cache).contains a)

/-- `get_coordinates(buildingaddress)`, with the loaded cache file and
the geocoding client passed explicitly.  If nothing is missing the
loaded cache is returned as is; otherwise the fetched rows are appended
and rows with a missing latitude are dropped. -/
def get_coordinates (gmaps : Geocoder) (buildingaddress : List String)
    (cache : CoordTable) : CoordTable :=
  let buildings_to_get := buildingsToGet buildingaddress cache
  if buildings_to_get.isEmpty then cache
  else
    let newRows : CoordTable := buildings_to_get.map (fun a =>
      (a, { lat := some (get_coordinates_inner gmaps a).1
            lng := some (get_coordinates_inner gmaps a).2 }))
    (cache ++ newRows).filter (fun kc => kc.2.lat.isSome)

/-- The static district file: a mapping from district name to its list
of region names, in file order. -/
abbrev DistrictFile := List (String × List String)

/-- `explode('regions')` on one row: one output row per region, keyed by
region and carrying the district; an empty list explodes to a single
row with a missing key. -/
def explodeDistrict (p : String × List String) : DistrictTable :=
  match p.2 with
  | [] => [(none, p.1)]
  | rs => rs.map (fun r => (some r, p.1))

/-- `get_districts()`, with the loaded districts file passed
explicitly: explode each district's region list and key by region. -/
def get_districts (file : DistrictFile) : DistrictTable :=
  file.flatMap explodeDistrict

/-- One neighbourhood page as fetched during price collection: its HTTP
status, whether the embedded data block carries a `statusCode` error
key, and the building list it holds. -/
structure NeighbourhoodPage where
  status : Nat
  hasStatusCode : Bool
  buildings : List PriceRow
deriving Repr

/-- `get_prices()`, with the persisted price file (if any) and the
scraped pages passed explicitly.  Returns the price table together with
the number of HTTP fetches performed (one for the index page plus one
per neighbourhood link).  An existing price file is returned as is with
zero fetches. -/
def get_prices (priceFile : Option (List PriceRow))
    (pages : List NeighbourhoodPage) : List PriceRow × Nat :=
  match priceFile with
  | some prices_df => (prices_df, 0)
  | none =>
    (pages.foldl (fun acc page =>
      if page.status ≠ 200 then acc
      else if page.hasStatusCode then acc
      else acc ++ page.buildings) [],
     1 + pages.length)

/-- Elementwise fallible map, failing on the first bad element; models a
column-wise pandas operation (`astype`, per-cell parse) that raises on
the first bad cell. -/
def mapE (f : α → Except String β) : List α → Except String (List β)
  | [] => .ok []
  | a :: as =>
    match f a with
    | .error e => .error e
    | .ok b =>
      match mapE f as with
      | .error e => .error e
      | .ok bs => .ok (b :: bs)

/-- Splitting a character list on commas, keeping empty fields, as
Python's `s.split(',')` does. -/
def splitCommaAux : List Char → List Char → List String
  | [], acc => [String.mk acc.reverse]
  | c :: cs, acc =>
    if c = ',' then String.mk acc.reverse :: splitCommaAux cs []
    else splitCommaAux cs (c :: acc)

/-- Python's `s.split(',')`: the comma-separated fields of `s`, empty
fields kept (so the empty string yields one empty field). -/
def pySplit (s : String) : List String :=
  splitCommaAux s.toList []

/-- The block produced by `str.split(',', expand=True)` for one row:
the row's own fields, padded on the right with missing cells up to the
column count of the block. -/
def padTo (n : Nat) (l : List String) : List (Option String) :=
  l.map some ++ List.replicate (n - l.length) none

/-- `astype(int)` on one cell of the split colour block: a padding cell
(None) fails, a non-numeric field fails. -/
def colourCell : Option String → Except String Int
  | none => .error "int() argument must be a string, not NoneType"
  | some s =>
    match pyInt? s with
    | some n => .ok n
    | none => .error ("invalid literal for int: " ++ s)

/-- Column count of the expanded split block: the maximum number of
comma-separated fields over all rows (0 for an empty table). -/
def maxParts (parts : List (List String)) : Nat :=
  parts.foldl (fun m l => max m l.length) 0

/-- Digit grouping for Python's format `f'{x:,d}'`, on the reversed
digit list: a comma after every three digits from the right. -/
def groupRev : List Char → List Char
  | c1 :: c2 :: c3 :: c4 :: rest => c1 :: c2 :: c3 :: ',' :: groupRev (c4 :: rest)
  | l => l

/-- Python's `f'{x:,d}'`: the integer with thousands separators. -/
def commaFormat (n : Int) : String :=
  (if n < 0 then "-" else "") ++ String.mk (groupRev (toString n.natAbs).toList.reverse).reverse

/-- `prices_df.join(coordinates_df, on='buildingaddress', how='inner')`:
for each price row, one output row per coordinate row whose key equals
the (non-missing) building address; unmatched price rows are dropped. -/
def innerJoinCoords (prices : List PriceRow) (coords : CoordTable) :
    List (PriceRow × CoordRow) :=
  prices.flatMap (fun p =>
    (coords.filter (fun kc => p.buildingaddress == some kc.1)).map (fun kc => (p, kc.2)))

/-- A row after both joins: price fields, coordinate fields, and the
(possibly missing) district from the left join. -/
structure JoinedRow where
  price : PriceRow
  coord : CoordRow
  district : Option String
deriving DecidableEq, Repr

/-- `result_df.join(district_df, on='region')` (a left join): unmatched
rows are kept with a missing district; each matching district row
yields one output row. -/
def leftJoinDistricts (rows : List (PriceRow × CoordRow))
    (districts : DistrictTable) : List JoinedRow :=
  rows.flatMap (fun pc =>
    match districts.filter (fun rd => rd.1 == some pc.1.region) with
    | [] => [⟨pc.1, pc.2, none⟩]
    | ms => ms.map (fun rd => ⟨pc.1, pc.2, some rd.2⟩))

/-- One row of the final combined table. -/
structure CombinedRow where
  buildingname : String
  buildingaddress : Option String
  region : String
  district : Option String
  medianpredprice : Int
  lat : Option Rat
  lng : Option Rat
  transactionscount : Int
  built : Int
  numberofunits : Int
  numberoffloors : Int
  colour : String
  medianpredprice_formatted : String
  r : Int
  g : Int
  b : Int
deriving DecidableEq, Repr

/-- The per-row part of the formatting stage: coerce the numeric
columns, parse this row's colour cells (padded to the block's column
count), and require exactly three channel columns. -/
def rowOut (ncols : Nat) (row : JoinedRow) : Except String CombinedRow :=
  match astypeInt row.price.medianpredprice with
  | .error e => .error e
  | .ok mp =>
    match mapE colourCell (padTo ncols (pySplit row.price.colour)) with
    | .error e => .error e
    | .ok [cr, cg, cb] =>
      match astypeInt row.price.transactionscount with
      | .error e => .error e
      | .ok tc =>
        match astypeInt row.price.built with
        | .error e => .error e
        | .ok bu =>
          match astypeInt row.price.numberofunits with
          | .error e => .error e
          | .ok nu =>
            match astypeInt row.price.numberoffloors with
            | .error e => .error e
            | .ok nf =>
              .ok { buildingname := row.price.buildingname
                    buildingaddress := row.price.buildingaddress
                    region := row.price.region
                    district := row.district
                    medianpredprice := mp
                    lat := row.coord.lat
                    lng := row.coord.lng
                    transactionscount := tc
                    built := bu
                    numberofunits := nu
                    numberoffloors := nf
                    colour := row.price.colour
                    medianpredprice_formatted := commaFormat mp
                    r := cr, g := cg, b := cb }
    | .ok _ => .error "Columns must be same length as key"

/-- The in-memory `result_df` after the two joins of
`combine_and_format_data`: inner join of prices and coordinates on
building address, then left join with the district lookup on region. -/
def joinedRows (prices_df : List PriceRow) (coordinates_df : CoordTable)
    (district_df : DistrictTable) : List JoinedRow :=
  leftJoinDistricts (innerJoinCoords prices_df coordinates_df) district_df

/-- The column count of the expanded colour block of `result_df`. -/
def combineNcols (prices_df : List PriceRow) (coordinates_df : CoordTable)
    (district_df : DistrictTable) : Nat :=
  maxParts ((joinedRows prices_df coordinates_df district_df).map
    (fun row => pySplit row.price.colour))

/-- `combine_and_format_data(prices_df, coordinates_df, district_df)`:
inner join on building address, left join on region, then the
column-wise coercions.  The two leading passes model the column order
of the source: `astype(int)` on `medianpredprice`, then `astype(int)`
on the whole split colour block, then the assignment
`result_df[['r','g','b']] = ...` which requires the block to have
exactly three columns (pandas raises `Columns must be same length as
key` otherwise, in particular on an empty table whose block has zero
columns).  The remaining coercions are applied per row by `rowOut`,
which recomputes the two leading columns with identical outcomes. -/
def combine_and_format_data (prices_df : List PriceRow)
    (coordinates_df : CoordTable) (district_df : DistrictTable) :
    Except String (List CombinedRow) :=
  match mapE (fun row => astypeInt row.price.medianpredprice)
      (joinedRows prices_df coordinates_df district_df) with
  | .error e => .error e
  | .ok _ =>
    match mapE (fun l => mapE colourCell
          (padTo (combineNcols prices_df coordinates_df district_df) l))
        ((joinedRows prices_df coordinates_df district_df).map
          (fun row => pySplit row.price.colour)) with
    | .error e => .error e
    | .ok _ =>
      if combineNcols prices_df coordinates_df district_df = 3
      then mapE (rowOut (combineNcols prices_df coordinates_df district_df))
        (joinedRows prices_df coordinates_df district_df)
      else .error "Columns must be same length as key"

/-! Helper lemmas about the embedding. -/

theorem mapE_ok_mem {α β : Type} {f : α → Except String β} :
    ∀ {l : List α} {bs : List β}, mapE f l = .ok bs →
      ∀ {b : β}, b ∈ bs → ∃ a ∈ l, f a = .ok b := by
  intro l
  induction l with
  | nil =>
    intro bs h b hb
    simp only [mapE, Except.ok.injEq] at h
    subst h
    cases hb
  | cons a as ih =>
    intro bs h b hb
    cases hfa : f a with
    | error e => simp only [mapE, hfa] at h; cases h
    | ok b0 =>
      cases hrec : mapE f as with
      | error e => simp only [mapE, hfa, hrec] at h; cases h
      | ok bs0 =>
        simp only [mapE, hfa, hrec, Except.ok.injEq] at h
        subst h
        rcases List.mem_cons.mp hb with rfl | hmem
        · exact ⟨a, List.mem_cons_self a as, hfa⟩
        · rcases ih hrec hmem with ⟨a2, ha2, hfa2⟩
          exact ⟨a2, List.mem_cons_of_mem a ha2, hfa2⟩

theorem mapE_ok_of_mem {α β : Type} {f : α → Except String β} :
    ∀ {l : List α} {bs : List β}, mapE f l = .ok bs →
      ∀ {a : α}, a ∈ l → ∃ b ∈ bs, f a = .ok b := by
  intro l
  induction l with
  | nil =>
    intro bs h a ha
    cases ha
  | cons x xs ih =>
    intro bs h a ha
    cases hfx : f x with
    | error e => simp only [mapE, hfx] at h; cases h
    | ok b0 =>
      cases hrec : mapE f xs with
      | error e => simp only [mapE, hfx, hrec] at h; cases h
      | ok bs0 =>
        simp only [mapE, hfx, hrec, Except.ok.injEq] at h
        subst h
        rcases List.mem_cons.mp ha with rfl | hmem
        · exact ⟨b0, List.mem_cons_self b0 bs0, hfx⟩
        · rcases ih hrec hmem with ⟨b2, hb2, hfb2⟩
          exact ⟨b2, List.mem_cons_of_mem b0 hb2, hfb2⟩

theorem mapE_error_of_mem {α β : Type} {f : α → Except String β} :
    ∀ {l : List α} {a : α}, a ∈ l → ∀ {e : String}, f a = .error e →
      ∃ e2, mapE f l = .error e2 := by
  intro l
  induction l with
  | nil => intro a ha; cases ha
  | cons x xs ih =>
    intro a ha e he
    cases hfx : f x with
    | error e0 => exact ⟨e0, by simp only [mapE, hfx]⟩
    | ok b0 =>
      rcases List.mem_cons.mp ha with rfl | hmem
      · rw [hfx] at he; cases he
      · rcases ih hmem he with ⟨e2, h2⟩
        exact ⟨e2, by simp only [mapE, hfx, h2]⟩

theorem foldl_max_init_le (parts : List (List String)) :
    ∀ init : Nat, init ≤ parts.foldl (fun m l => max m l.length) init := by
  induction parts with
  | nil => intro init; exact Nat.le_refl _
  | cons x xs ih =>
    intro init
    exact Nat.le_trans (Nat.le_max_left init x.length) (ih (max init x.length))

theorem length_le_maxParts {parts : List (List String)} {l : List String}
    (h : l ∈ parts) : l.length ≤ maxParts parts := by
  have key : ∀ (ps : List (List String)) (init : Nat), l ∈ ps →
      l.length ≤ ps.foldl (fun m x => max m x.length) init := by
    intro ps
    induction ps with
    | nil => intro init hmem; cases hmem
    | cons x xs ih =>
      intro init hmem
      rcases List.mem_cons.mp hmem with rfl | hmem2
      · exact Nat.le_trans (Nat.le_max_right init l.length) (foldl_max_init_le xs _)
      · exact ih _ hmem2
  exact key parts 0 h

theorem mem_innerJoinCoords {prices : List PriceRow} {coords : CoordTable}
    {pc : PriceRow × CoordRow} (h : pc ∈ innerJoinCoords prices coords) :
    pc.1 ∈ prices ∧ ∃ k, (k, pc.2) ∈ coords ∧ pc.1.buildingaddress = some k := by
  rcases List.mem_flatMap.mp h with ⟨p, hp, hin⟩
  rcases List.mem_map.mp hin with ⟨kc, hkc, heq⟩
  rcases List.mem_filter.mp hkc with ⟨hkcmem, hbeq⟩
  subst heq
  refine ⟨hp, kc.1, ?_, ?_⟩
  · simpa using hkcmem
  · simpa using hbeq

theorem innerJoinCoords_mem_of {prices : List PriceRow} {coords : CoordTable}
    {p : PriceRow} {k : String} {cr : CoordRow}
    (hp : p ∈ prices) (hkc : (k, cr) ∈ coords)
    (haddr : p.buildingaddress = some k) :
    (p, cr) ∈ innerJoinCoords prices coords := by
  apply List.mem_flatMap.mpr
  refine ⟨p, hp, ?_⟩
  apply List.mem_map.mpr
  refine ⟨(k, cr), ?_, rfl⟩
  apply List.mem_filter.mpr
  exact ⟨hkc, by simp [haddr]⟩

theorem leftJoinDistricts_src {rows : List (PriceRow × CoordRow)}
    {districts : DistrictTable} {jr : JoinedRow}
    (h : jr ∈ leftJoinDistricts rows districts) :
    ∃ pc ∈ rows, jr.price = pc.1 ∧ jr.coord = pc.2 ∧
      (jr.district = none ∨
        ∃ rd ∈ districts, rd.1 = some pc.1.region ∧ jr.district = some rd.2) := by
  rcases List.mem_flatMap.mp h with ⟨pc, hpc, hin⟩
  refine ⟨pc, hpc, ?_⟩
  cases hf : districts.filter (fun rd => rd.1 == some pc.1.region) with
  | nil =>
    rw [hf] at hin
    simp only [List.mem_singleton] at hin
    subst hin
    exact ⟨rfl, rfl, Or.inl rfl⟩
  | cons x xs =>
    rw [hf] at hin
    rcases List.mem_map.mp hin with ⟨rd, hrd, heq⟩
    subst heq
    have hrdf : rd ∈ districts.filter (fun rd => rd.1 == some pc.1.region) := by
      rw [hf]; exact hrd
    rcases List.mem_filter.mp hrdf with ⟨hrdm, hrdb⟩
    exact ⟨rfl, rfl, Or.inr ⟨rd, hrdm, by simpa using hrdb, rfl⟩⟩

theorem leftJoinDistricts_keeps {rows : List (PriceRow × CoordRow)}
    {districts : DistrictTable} {pc : PriceRow × CoordRow} (h : pc ∈ rows) :
    ∃ jr ∈ leftJoinDistricts rows districts, jr.price = pc.1 ∧ jr.coord = pc.2 := by
  cases hf : districts.filter (fun rd => rd.1 == some pc.1.region) with
  | nil =>
    refine ⟨⟨pc.1, pc.2, none⟩, ?_, rfl, rfl⟩
    apply List.mem_flatMap.mpr
    refine ⟨pc, h, ?_⟩
    rw [hf]
    simp
  | cons x xs =>
    refine ⟨⟨pc.1, pc.2, some x.2⟩, ?_, rfl, rfl⟩
    apply List.mem_flatMap.mpr
    refine ⟨pc, h, ?_⟩
    rw [hf]
    exact List.mem_map.mpr ⟨x, List.mem_cons_self x xs, rfl⟩

theorem colourCell_ok {s : String} {n : Int}
    (h : colourCell (some s) = .ok n) : pyInt? s = some n := by
  cases hp : pyInt? s with
  | none => simp only [colourCell, hp] at h; cases h
  | some m => simp only [colourCell, hp, Except.ok.injEq] at h; rw [h]

theorem rowOut_ok_spec {ncols : Nat} {jr : JoinedRow} {out : CombinedRow}
    (h : rowOut ncols jr = .ok out) :
    out.buildingaddress = jr.price.buildingaddress ∧
    out.region = jr.price.region ∧
    out.district = jr.district ∧
    out.lat = jr.coord.lat ∧
    out.lng = jr.coord.lng ∧
    out.colour = jr.price.colour ∧
    mapE colourCell (padTo ncols (pySplit jr.price.colour)) =
      .ok [out.r, out.g, out.b] := by
  unfold rowOut at h
  split at h
  · cases h
  next mp hmp =>
    split at h
    · cases h
    next cr cg cb hcells =>
      split at h
      · cases h
      next tc htc =>
        split at h
        · cases h
        next bu hbu =>
          split at h
          · cases h
          next nu hnu =>
            split at h
            · cases h
            next nf hnf =>
              cases h
              exact ⟨rfl, rfl, rfl, rfl, rfl, rfl, hcells⟩
    next hne => cases h

theorem combine_ok_parts {prices : List PriceRow} {coords : CoordTable}
    {districts : DistrictTable} {t : List CombinedRow}
    (h : combine_and_format_data prices coords districts = .ok t) :
    combineNcols prices coords districts = 3 ∧
    mapE (rowOut (combineNcols prices coords districts))
      (joinedRows prices coords districts) = .ok t := by
  unfold combine_and_format_data at h
  split at h
  · cases h
  · split at h
    · cases h
    · split at h
      next hn => exact ⟨hn, h⟩
      next hn => cases h

theorem combine_error_of_ncols_ne {prices : List PriceRow} {coords : CoordTable}
    {districts : DistrictTable}
    (h : combineNcols prices coords districts ≠ 3) :
    ∃ e, combine_and_format_data prices coords districts = .error e := by
  unfold combine_and_format_data
  split
  · exact ⟨_, rfl⟩
  · split
    · exact ⟨_, rfl⟩
    · rw [if_neg h]
      exact ⟨_, rfl⟩

theorem combine_error_of_rowOut {prices : List PriceRow} {coords : CoordTable}
    {districts : DistrictTable} {jr : JoinedRow}
    (hjr : jr ∈ joinedRows prices coords districts)
    (hro : ∃ e, rowOut (combineNcols prices coords districts) jr = .error e) :
    ∃ e, combine_and_format_data prices coords districts = .error e := by
  unfold combine_and_format_data
  split
  · exact ⟨_, rfl⟩
  · split
    · exact ⟨_, rfl⟩
    · split
      · rcases hro with ⟨e, he⟩
        exact mapE_error_of_mem hjr he
      · exact ⟨_, rfl⟩

theorem rowOut_error_of_colour {ncols : Nat} {jr : JoinedRow}
    (h : ∃ e, mapE colourCell (padTo ncols (pySplit jr.price.colour)) = .error e) :
    ∃ e, rowOut ncols jr = .error e := by
  rcases h with ⟨e, he⟩
  unfold rowOut
  cases hmp : astypeInt jr.price.medianpredprice with
  | error e0 => exact ⟨e0, rfl⟩
  | ok mp => rw [he]; exact ⟨e, rfl⟩

theorem rowOut_error_of_field {ncols : Nat} {jr : JoinedRow}
    (h : (∃ e, astypeInt jr.price.medianpredprice = .error e) ∨
         (∃ e, astypeInt jr.price.transactionscount = .error e) ∨
         (∃ e, astypeInt jr.price.built = .error e) ∨
         (∃ e, astypeInt jr.price.numberofunits = .error e) ∨
         (∃ e, astypeInt jr.price.numberoffloors = .error e)) :
    ∃ e, rowOut ncols jr = .error e := by
  unfold rowOut
  split
  · exact ⟨_, rfl⟩
  next mp hmp =>
    split
    · exact ⟨_, rfl⟩
    next cr cg cb hcells =>
      split
      · exact ⟨_, rfl⟩
      next tc htc =>
        split
        · exact ⟨_, rfl⟩
        next bu hbu =>
          split
          · exact ⟨_, rfl⟩
          next nu hnu =>
            split
            · exact ⟨_, rfl⟩
            next nf hnf =>
              exfalso
              rcases h with ⟨e, he⟩ | ⟨e, he⟩ | ⟨e, he⟩ | ⟨e, he⟩ | ⟨e, he⟩
              · rw [he] at hmp; cases hmp
              · rw [he] at htc; cases htc
              · rw [he] at hbu; cases hbu
              · rw [he] at hnu; cases hnu
              · rw [he] at hnf; cases hnf
    next hne => exact ⟨_, rfl⟩

theorem count_filter_bool {α : Type} [DecidableEq α] (p : α → Bool)
    (l : List α) (a : α) :
    (l.filter p).count a = if p a then l.count a else 0 := by
  induction l with
  | nil => simp
  | cons x xs ih =>
    by_cases hxa : x = a
    · subst hxa
      by_cases hpx : p x = true <;>
        simp [List.filter_cons, hpx, List.count_cons, ih]
    · by_cases hpx : p x = true <;>
        simp [List.filter_cons, hpx, List.count_cons, hxa, ih, Ne.symm hxa]

theorem get_coordinates_of_empty {gmaps : Geocoder} {input : List String}
    {cache : CoordTable} (h : (buildingsToGet input cache).isEmpty = true) :
    get_coordinates gmaps input cache = cache := by
  simp [get_coordinates, h]

theorem get_coordinates_of_nonempty {gmaps : Geocoder} {input : List String}
    {cache : CoordTable}
    (h : ¬ (buildingsToGet input cache).isEmpty = true) :
    get_coordinates gmaps input cache =
      (cache ++ (buildingsToGet input cache).map (fun a =>
        (a, ({ lat := some (get_coordinates_inner gmaps a).1
               lng := some (get_coordinates_inner gmaps a).2 } : CoordRow)))).filter
        (fun kc => kc.2.lat.isSome) := by
  simp [get_coordinates, h]

theorem explodeDistrict_eq {p : String × List String} (h : p.2 ≠ []) :
    explodeDistrict p = p.2.map (fun r => (some r, p.1)) := by
  unfold explodeDistrict
  cases hp : p.2 with
  | nil => exact absurd hp h
  | cons a as => rfl

theorem get_districts_explodes : ∀ (file : DistrictFile),
    (∀ p ∈ file, p.2 ≠ []) →
    get_districts file =
      file.flatMap (fun p => p.2.map (fun r => (some r, p.1))) := by
  intro file
  induction file with
  | nil => intro _; rfl
  | cons x xs ih =>
    intro hne
    have hx : x.2 ≠ [] := hne x (List.mem_cons_self x xs)
    have ihh := ih (fun p hp => hne p (List.mem_cons_of_mem x hp))
    simp only [get_districts] at ihh ⊢
    rw [List.flatMap_cons, List.flatMap_cons, explodeDistrict_eq hx, ihh]

/-! The claims. -/

/-- C1 (code bug): an address whose geocoding query returns no match is
recorded as the `(0, 0)` sentinel, and `0` is not a missing value, so
the `notna` filter keeps the row: the failed address IS returned (and
hence persisted to the coordinate cache) by `get_coordinates`, and also
appears — at latitude/longitude 0 — in the table produced by
`combine_and_format_data`, contradicting the claimed exclusion. -/
theorem C1_sentinel_row_persisted :
    get_coordinates (fun _ => none) ["X"] [] =
      [("X", { lat := some 0, lng := some 0 })] ∧
    (combine_and_format_data
        [{ buildingname := "b", buildingaddress := some "X", region := "r",
           medianpredprice := .vint 5, transactionscount := .vint 1,
           built := .vint 2000, numberofunits := .vint 2,
           numberoffloors := .vint 3, colour := "1,2,3" }]
        (get_coordinates (fun _ => none) ["X"] []) []).map
      (fun t => t.map (fun out => (out.buildingaddress, out.lat, out.lng))) =
      .ok [(some "X", some 0, some 0)] := by
  constructor
  · decide
  · decide

/-- C2 (counterexample): with cache `{A}` and input `[A]`,
`get_coordinates` returns a table with exactly the same key set, so the
key set of the persisted cache is NOT a strict superset of its previous
state after every run. -/
theorem C2_not_strict_superset :
    get_coordinates (fun _ => some (1, 1)) ["A"]
        [("A", { lat := some 1, lng := some 2 })] =
      [("A", { lat := some 1, lng := some 2 })] ∧
    (∀ k ∈ cacheKeys (get_coordinates (fun _ => some (1, 1)) ["A"]
        [("A", { lat := some 1, lng := some 2 })]),
      k ∈ cacheKeys [("A", ({ lat := some 1, lng := some 2 } : CoordRow))]) := by
  constructor
  · decide
  · decide

/-- C2 (amended): an address already present as a cache key is never
re-queried, and — provided every cached row has a non-missing latitude,
which holds for every table the fetch path itself persists — the key
set of the returned table is a (not necessarily strict) superset of the
cached key set. -/
theorem C2_cache_monotone (gmaps : Geocoder) (input : List String)
    (cache : CoordTable)
    (hnn : ∀ kc ∈ cache, kc.2.lat.isSome = true) :
    (∀ a ∈ buildingsToGet input cache, a ∉ cacheKeys cache) ∧
    (∀ k ∈ cacheKeys cache,
      k ∈ cacheKeys (get_coordinates gmaps input cache)) := by
  constructor
  · intro a ha
    rcases List.mem_filter.mp ha with ⟨-, hpa⟩
    simpa using hpa
  · intro k hk
    by_cases hemp : (buildingsToGet input cache).isEmpty = true
    · rw [get_coordinates_of_empty hemp]
      exact hk
    · rw [get_coordinates_of_nonempty hemp]
      rcases List.mem_map.mp hk with ⟨kc, hkc, rfl⟩
      apply List.mem_map.mpr
      refine ⟨kc, ?_, rfl⟩
      apply List.mem_filter.mpr
      exact ⟨List.mem_append_left _ hkc, hnn kc hkc⟩

/-- C2 witness: a concrete cached address is not re-queried and its key
survives the run. -/
theorem C2_cache_monotone_witness :
    (∀ kc ∈ [("A", ({ lat := some 1, lng := some 2 } : CoordRow))],
      kc.2.lat.isSome = true) ∧
    ((∀ a ∈ buildingsToGet ["A", "B"]
        [("A", { lat := some 1, lng := some 2 })],
      a ∉ cacheKeys [("A", ({ lat := some 1, lng := some 2 } : CoordRow))]) ∧
     (∀ k ∈ cacheKeys [("A", ({ lat := some 1, lng := some 2 } : CoordRow))],
      k ∈ cacheKeys (get_coordinates (fun _ => some (5, 6)) ["A", "B"]
        [("A", { lat := some 1, lng := some 2 })]))) :=
  ⟨by decide, C2_cache_monotone (fun _ => some (5, 6)) ["A", "B"]
    [("A", { lat := some 1, lng := some 2 })] (by decide)⟩

/-- C3 (counterexample): with an empty cache and the input series
`[A, A]`, both occurrences are in `buildings_to_get`, and each element
of that series incurs one geocoding call, so a duplicated address is
queried twice — not at most once per distinct address. -/
theorem C3_duplicates_requery :
    buildingsToGet ["A", "A"] [] = ["A", "A"] ∧
    (buildingsToGet ["A", "A"] []).length = 2 := by
  constructor
  · decide
  · decide

/-- C3 (amended): only addresses not present as cache keys are queried,
but one geocoding query is issued per OCCURRENCE of such an address in
the input series: the number of queries for an address equals its
number of occurrences (0 if it is cached). -/
theorem C3_one_query_per_occurrence (input : List String)
    (cache : CoordTable) (a : String) :
    (buildingsToGet input cache).count a =
      if a ∈ cacheKeys cache then 0 else input.count a := by
  unfold buildingsToGet
  rw [count_filter_bool]
  by_cases h : a ∈ cacheKeys cache <;> simp [h]

/-- C7: when the persisted price file exists, `get_prices` returns it
unconditionally, with zero HTTP fetches. -/
theorem C7_price_cache_short_circuit (prices_df : List PriceRow)
    (pages : List NeighbourhoodPage) :
    get_prices (some prices_df) pages = (prices_df, 0) := rfl

/-- C8: `get_districts` expands each district's region list into one
row per region, keyed by region and carrying the owning district; in
particular the singleton mapping NewTerritories to two regions yields
exactly the two rows regionA and regionB, both mapped to
NewTerritories. -/
theorem C8_district_explosion (file : DistrictFile)
    (hne : ∀ p ∈ file, p.2 ≠ []) :
    get_districts file =
      file.flatMap (fun p => p.2.map (fun r => (some r, p.1))) ∧
    get_districts [("NewTerritories", ["regionA", "regionB"])] =
      [(some "regionA", "NewTerritories"),
       (some "regionB", "NewTerritories")] :=
  ⟨get_districts_explodes file hne, rfl⟩

/-- C8 witness at the claim's own input. -/
theorem C8_district_explosion_witness :
    (∀ p ∈ [("NewTerritories", ["regionA", "regionB"])],
      p.2 ≠ ([] : List String)) ∧
    (get_districts [("NewTerritories", ["regionA", "regionB"])] =
      [("NewTerritories", ["regionA", "regionB"])].flatMap
        (fun p => p.2.map (fun r => (some r, p.1))) ∧
     get_districts [("NewTerritories", ["regionA", "regionB"])] =
      [(some "regionA", "NewTerritories"),
       (some "regionB", "NewTerritories")]) :=
  ⟨by decide, C8_district_explosion _ (by decide)⟩

/-- C10: when every input address is already a cache key,
`get_coordinates` hits the early return and hands back the loaded
cache unchanged — in particular without the null-latitude filter, so a
cached row with a missing latitude is returned (and re-persisted). -/
theorem C10_cached_input_early_return (gmaps : Geocoder)
    (input : List String) (cache : CoordTable)
    (hall : ∀ a ∈ input, a ∈ cacheKeys cache) :
    get_coordinates gmaps input cache = cache := by
  apply get_coordinates_of_empty
  have : buildingsToGet input cache = [] := by
    unfold buildingsToGet
    apply List.filter_eq_nil_iff.mpr
    intro a ha
    simpa using hall a ha
  rw [this]
  rfl

/-- C10 witness: a cache holding a null-latitude row is returned as is,
null row included. -/
theorem C10_cached_input_early_return_witness :
    (∀ a ∈ ["A"], a ∈ cacheKeys
      [("A", ({ lat := none, lng := none } : CoordRow))]) ∧
    get_coordinates (fun _ => none) ["A"]
        [("A", { lat := none, lng := none })] =
      [("A", { lat := none, lng := none })] :=
  ⟨by decide, C10_cached_input_early_return (fun _ => none) ["A"]
    [("A", { lat := none, lng := none })] (by decide)⟩

theorem mapE_three {α β : Type} {f : α → Except String β} {a b c : α}
    {bs : List β} (h : mapE f [a, b, c] = .ok bs) :
    ∃ x y z, bs = [x, y, z] ∧ f a = .ok x ∧ f b = .ok y ∧ f c = .ok z := by
  cases ha : f a with
  | error e => simp only [mapE, ha] at h; cases h
  | ok x =>
    cases hb : f b with
    | error e => simp only [mapE, ha, hb] at h; cases h
    | ok y =>
      cases hc : f c with
      | error e => simp only [mapE, ha, hb, hc] at h; cases h
      | ok z =>
        simp only [mapE, ha, hb, hc, Except.ok.injEq] at h
        exact ⟨x, y, z, h.symm, rfl, rfl, rfl⟩

/-- C4 (counterexample): with empty price and coordinate tables the
joined table is empty, the expanded colour block has zero columns, and
the assignment of the three channel columns fails — the run errors
rather than returning an empty combined table. -/
theorem C4_empty_input_errors_concrete :
    combine_and_format_data [] [] [] =
      .error "Columns must be same length as key" := by
  decide

/-- C4 (amended): with an empty price table and an empty coordinate
table (and any district table), `combine_and_format_data` raises an
error instead of producing an empty combined table. -/
theorem C4_empty_input_raises (district_df : DistrictTable) :
    ∃ e, combine_and_format_data [] [] district_df = .error e :=
  ⟨"Columns must be same length as key", rfl⟩

/-- C5: when `combine_and_format_data` succeeds on a coordinate table
whose rows all carry non-missing lat/lng (as the geocoder fetch path
guarantees for the tables it persists), every combined row has a
non-missing buildingaddress, lat and lng; a row whose region has no
district entry keeps a missing district; and every row surviving the
inner join — its region matched or not — yields an output row rather
than being dropped. -/
theorem C5_join_completeness (prices : List PriceRow) (coords : CoordTable)
    (districts : DistrictTable) (t : List CombinedRow)
    (hnn : ∀ kc ∈ coords, kc.2.lat.isSome = true ∧ kc.2.lng.isSome = true)
    (hok : combine_and_format_data prices coords districts = .ok t) :
    (∀ out ∈ t, out.buildingaddress.isSome = true ∧
      out.lat.isSome = true ∧ out.lng.isSome = true) ∧
    (∀ out ∈ t, (∀ rd ∈ districts, rd.1 ≠ some out.region) →
      out.district = none) ∧
    (∀ pc ∈ innerJoinCoords prices coords, ∃ out ∈ t,
      out.buildingaddress = pc.1.buildingaddress ∧
      out.region = pc.1.region) := by
  obtain ⟨hn3, hmap⟩ := combine_ok_parts hok
  unfold joinedRows at hmap
  refine ⟨?_, ?_, ?_⟩
  · intro out hout
    obtain ⟨jr, hjr, hro⟩ := mapE_ok_mem hmap hout
    obtain ⟨haddr, hreg, hdis, hlat, hlng, hcol, hcells⟩ := rowOut_ok_spec hro
    obtain ⟨pc, hpc, hjp, hjc, -⟩ := leftJoinDistricts_src hjr
    obtain ⟨hpm, k, hkc, hk⟩ := mem_innerJoinCoords hpc
    refine ⟨?_, ?_, ?_⟩
    · rw [haddr, hjp, hk]; rfl
    · rw [hlat, hjc]; exact (hnn (k, pc.2) hkc).1
    · rw [hlng, hjc]; exact (hnn (k, pc.2) hkc).2
  · intro out hout hnm
    obtain ⟨jr, hjr, hro⟩ := mapE_ok_mem hmap hout
    obtain ⟨haddr, hreg, hdis, -, -, -, -⟩ := rowOut_ok_spec hro
    obtain ⟨pc, hpc, hjp, hjc, hd⟩ := leftJoinDistricts_src hjr
    rcases hd with hd | ⟨rd, hrdm, hrdeq, hrdd⟩
    · rw [hdis, hd]
    · exfalso
      apply hnm rd hrdm
      rw [hrdeq, hreg, hjp]
  · intro pc hpc
    obtain ⟨jr, hjr, hjp, hjc⟩ :=
      @leftJoinDistricts_keeps (innerJoinCoords prices coords) districts pc hpc
    obtain ⟨out, hout, hro⟩ := mapE_ok_of_mem hmap hjr
    obtain ⟨haddr, hreg, -, -, -, -, -⟩ := rowOut_ok_spec hro
    exact ⟨out, hout, by rw [haddr, hjp], by rw [hreg, hjp]⟩

/-- A concrete price row used by the concrete instances below. -/
def rowA : PriceRow :=
  { buildingname := "b", buildingaddress := some "A", region := "regionX",
    medianpredprice := .vint 5, transactionscount := .vint 1,
    built := .vint 2000, numberofunits := .vint 2,
    numberoffloors := .vint 3, colour := "1,2,3" }

/-- A concrete one-key coordinate table used by the instances below. -/
def coordA : CoordTable := [("A", { lat := some 22, lng := some 114 })]

/-- The combined row the pipeline produces from `rowA` and `coordA`. -/
def outA : CombinedRow :=
  { buildingname := "b", buildingaddress := some "A", region := "regionX",
    district := none, medianpredprice := 5, lat := some 22, lng := some 114,
    transactionscount := 1, built := 2000, numberofunits := 2,
    numberoffloors := 3, colour := "1,2,3", medianpredprice_formatted := "5",
    r := 1, g := 2, b := 3 }

/-- C5 witness: a concrete run whose output row keeps a missing
district for an unmapped region and carries the joined coordinates. -/
theorem C5_join_completeness_witness :
    (∀ kc ∈ coordA, kc.2.lat.isSome = true ∧ kc.2.lng.isSome = true) ∧
    combine_and_format_data [rowA] coordA [] = .ok [outA] ∧
    ((∀ out ∈ [outA], out.buildingaddress.isSome = true ∧
        out.lat.isSome = true ∧ out.lng.isSome = true) ∧
     (∀ out ∈ [outA],
        (∀ rd ∈ ([] : DistrictTable), rd.1 ≠ some out.region) →
        out.district = none) ∧
     (∀ pc ∈ innerJoinCoords [rowA] coordA, ∃ out ∈ [outA],
        out.buildingaddress = pc.1.buildingaddress ∧
        out.region = pc.1.region)) :=
  ⟨by decide, by decide,
    C5_join_completeness [rowA] coordA [] [outA] (by decide) (by decide)⟩

/-- C9: in every successful run, each output row's `r`, `g`, `b` are
exactly the comma-separated fields of its colour string parsed as
integers, in order; in particular colour `10,200,30` yields r = 10,
g = 200, b = 30. -/
theorem C9_colour_split (prices : List PriceRow) (coords : CoordTable)
    (districts : DistrictTable) (t : List CombinedRow)
    (hok : combine_and_format_data prices coords districts = .ok t) :
    (∀ out ∈ t, (pySplit out.colour).map pyInt? =
      [some out.r, some out.g, some out.b]) ∧
    (∀ out ∈ t, out.colour = "10,200,30" →
      out.r = 10 ∧ out.g = 200 ∧ out.b = 30) := by
  obtain ⟨hn3, hmap⟩ := combine_ok_parts hok
  have hfirst : ∀ out ∈ t, (pySplit out.colour).map pyInt? =
      [some out.r, some out.g, some out.b] := by
    intro out hout
    obtain ⟨jr, hjr, hro⟩ := mapE_ok_mem hmap hout
    obtain ⟨-, -, -, -, -, hcol, hcells⟩ := rowOut_ok_spec hro
    rw [hn3] at hcells
    have hn3b := hn3
    unfold combineNcols at hn3b
    have hmem : pySplit jr.price.colour ∈
        (joinedRows prices coords districts).map
          (fun row => pySplit row.price.colour) :=
      List.mem_map_of_mem _ hjr
    have hle : (pySplit jr.price.colour).length ≤ 3 := by
      have hbound := length_le_maxParts hmem
      rw [hn3b] at hbound
      exact hbound
    have hlen : (pySplit jr.price.colour).length = 3 := by
      by_contra hne
      have hlt : (pySplit jr.price.colour).length < 3 :=
        lt_of_le_of_ne hle hne
      have hnone : (none : Option String) ∈
          padTo 3 (pySplit jr.price.colour) := by
        unfold padTo
        apply List.mem_append_right
        apply List.mem_replicate.mpr
        exact ⟨by omega, rfl⟩
      obtain ⟨v, hv, hcv⟩ := mapE_ok_of_mem hcells hnone
      simp [colourCell] at hcv
    obtain ⟨s1, s2, s3, hsplit⟩ := List.length_eq_three.mp hlen
    rw [hsplit] at hcells
    have hpad : padTo 3 [s1, s2, s3] = [some s1, some s2, some s3] := by
      simp [padTo]
    rw [hpad] at hcells
    obtain ⟨x, y, z, hxyz, h1, h2, h3⟩ := mapE_three hcells
    obtain ⟨e1, e2, e3⟩ : out.r = x ∧ out.g = y ∧ out.b = z := by
      simpa using hxyz
    rw [hcol, hsplit]
    simp only [List.map]
    rw [colourCell_ok h1, colourCell_ok h2, colourCell_ok h3, e1, e2, e3]
  refine ⟨hfirst, ?_⟩
  intro out hout hc
  have h1 := hfirst out hout
  rw [hc] at h1
  have h2 : (pySplit "10,200,30").map pyInt? =
      [some (10 : Int), some 200, some 30] := by decide
  rw [h2] at h1
  have h3 : (10 : Int) = out.r ∧ (200 : Int) = out.g ∧
      (30 : Int) = out.b := by simpa using h1
  exact ⟨h3.1.symm, h3.2.1.symm, h3.2.2.symm⟩

/-- A copy of `rowA` whose colour is the claim's `10,200,30`. -/
def rowB : PriceRow := { rowA with colour := "10,200,30" }

/-- The combined row the pipeline produces from `rowB` and `coordA`. -/
def outB : CombinedRow :=
  { outA with colour := "10,200,30", r := 10, g := 200, b := 30 }

/-- C9 witness at the claim's own colour string. -/
theorem C9_colour_split_witness :
    combine_and_format_data [rowB] coordA [] = .ok [outB] ∧
    ((∀ out ∈ [outB], (pySplit out.colour).map pyInt? =
        [some out.r, some out.g, some out.b]) ∧
     (∀ out ∈ [outB], out.colour = "10,200,30" →
        out.r = 10 ∧ out.g = 200 ∧ out.b = 30)) :=
  ⟨by decide, C9_colour_split [rowB] coordA [] [outB] (by decide)⟩

/-- C6 (counterexample): an input row with a non-coercible price and a
malformed colour, but whose address has no resolved coordinate, is
dropped by the inner join before the coercion stage — the run succeeds
instead of raising, so malformed data in a row merely reaching the
function is not always fatal. -/
theorem C6_bad_row_skipped_by_join :
    combine_and_format_data
      [rowA,
       { buildingname := "c", buildingaddress := some "NOPE",
         region := "r", medianpredprice := .vstr "garbage",
         transactionscount := .vint 1, built := .vint 2000,
         numberofunits := .vint 2, numberoffloors := .vint 3,
         colour := "not,a,colour" }]
      coordA [] = .ok [outA] := by decide

/-- C6 (amended): if any row SURVIVING the joins (present in the
in-memory table at the coercion stage) has a non-coercible numeric
field or a malformed colour string (wrong field count or a non-numeric
field), the whole run errors and no table is produced. -/
theorem C6_bad_surviving_row_fatal (prices : List PriceRow)
    (coords : CoordTable) (districts : DistrictTable) (jr : JoinedRow)
    (hjr : jr ∈ joinedRows prices coords districts)
    (hbad : (∃ e, astypeInt jr.price.medianpredprice = .error e) ∨
            (∃ e, astypeInt jr.price.transactionscount = .error e) ∨
            (∃ e, astypeInt jr.price.built = .error e) ∨
            (∃ e, astypeInt jr.price.numberofunits = .error e) ∨
            (∃ e, astypeInt jr.price.numberoffloors = .error e) ∨
            (pySplit jr.price.colour).length ≠ 3 ∨
            (∃ s ∈ pySplit jr.price.colour, pyInt? s = none)) :
    ∃ e, combine_and_format_data prices coords districts = .error e := by
  rcases hbad with h | h | h | h | h | h | h
  · exact combine_error_of_rowOut hjr (rowOut_error_of_field (Or.inl h))
  · exact combine_error_of_rowOut hjr
      (rowOut_error_of_field (Or.inr (Or.inl h)))
  · exact combine_error_of_rowOut hjr
      (rowOut_error_of_field (Or.inr (Or.inr (Or.inl h))))
  · exact combine_error_of_rowOut hjr
      (rowOut_error_of_field (Or.inr (Or.inr (Or.inr (Or.inl h)))))
  · exact combine_error_of_rowOut hjr
      (rowOut_error_of_field (Or.inr (Or.inr (Or.inr (Or.inr h)))))
  · by_cases hn : combineNcols prices coords districts = 3
    · have hn3b := hn
      unfold combineNcols at hn3b
      have hmem : pySplit jr.price.colour ∈
          (joinedRows prices coords districts).map
            (fun row => pySplit row.price.colour) :=
        List.mem_map_of_mem _ hjr
      have hle : (pySplit jr.price.colour).length ≤ 3 := by
        have hbound := length_le_maxParts hmem
        rw [hn3b] at hbound
        exact hbound
      have hnone : (none : Option String) ∈
          padTo (combineNcols prices coords districts)
            (pySplit jr.price.colour) := by
        rw [hn]
        unfold padTo
        apply List.mem_append_right
        apply List.mem_replicate.mpr
        exact ⟨by omega, rfl⟩
      obtain ⟨e2, he2⟩ := mapE_error_of_mem hnone
        (show colourCell none = .error
          "int() argument must be a string, not NoneType" from rfl)
      exact combine_error_of_rowOut hjr
        (rowOut_error_of_colour ⟨e2, he2⟩)
    · exact combine_error_of_ncols_ne hn
  · rcases h with ⟨s, hs, hsnone⟩
    have hmem : (some s) ∈
        padTo (combineNcols prices coords districts)
          (pySplit jr.price.colour) := by
      unfold padTo
      exact List.mem_append_left _ (List.mem_map_of_mem some hs)
    have hcerr : colourCell (some s) =
        .error ("invalid literal for int: " ++ s) := by
      simp [colourCell, hsnone]
    obtain ⟨e2, he2⟩ := mapE_error_of_mem hmem hcerr
    exact combine_error_of_rowOut hjr (rowOut_error_of_colour ⟨e2, he2⟩)

/-- A copy of `rowA` with a two-field colour string. -/
def rowBadColour : PriceRow := { rowA with colour := "1,2" }

/-- C6 witness: a surviving row with a two-field colour aborts the
whole run. -/
theorem C6_bad_surviving_row_fatal_witness :
    (⟨rowBadColour, { lat := some 22, lng := some 114 }, none⟩ : JoinedRow) ∈
      joinedRows [rowBadColour] coordA [] ∧
    (pySplit rowBadColour.colour).length ≠ 3 ∧
    ∃ e, combine_and_format_data [rowBadColour] coordA [] = .error e :=
  ⟨by decide, by decide,
    C6_bad_surviving_row_fatal [rowBadColour] coordA []
      ⟨rowBadColour, { lat := some 22, lng := some 114 }, none⟩
      (by decide)
      (Or.inr (Or.inr (Or.inr (Or.inr (Or.inr (Or.inl (by decide)))))))⟩
